import Mathlib

-- Verification development for the StudBud study-plan generator (src/app.py).
-- The embedding models Python values shallowly: Python ints are ℤ/ℕ (unbounded,
-- as in Python), floats arising from true division and the classifier score are
-- modelled as exact rationals ℚ, strings are Lean Strings, dicts keyed by
-- strings are association lists with Python dict assignment semantics
-- (replace-in-place when the key is present, append otherwise), and the
-- classifier (transformers pipeline) and random.choice randomness are injected
-- as explicit parameters.  Printing to the console is modelled as a returned
-- list of messages.

-- Decimal-digit character, as produced by strftime-style formatting.
def digitChar (n : Nat) : Char := Char.ofNat (48 + n)

-- Decimal digits of a natural number, most significant first, computed with
-- structural fuel (fuel n+1 always suffices) so that concrete evaluation
-- reduces definitionally.
def natDigitsAux : Nat → Nat → List Char
  | 0, _ => []
  | fuel+1, n => if n < 10 then [digitChar n] else natDigitsAux fuel (n / 10) ++ [digitChar (n % 10)]

-- Decimal representation of a natural number as characters.
def natDigits (n : Nat) : List Char := natDigitsAux (n + 1) n

-- Left-pad a character list with zeros to width w (strftime zero padding).
def padLeft (w : Nat) (l : List Char) : List Char := List.replicate (w - l.length) '0' ++ l

-- Calendar dates, modelling Python datetime.date (proleptic Gregorian).
structure Date where
  year : Nat
  month : Nat
  day : Nat
deriving DecidableEq

-- Gregorian leap-year rule, as implemented by the datetime module.
def isLeap (y : Nat) : Bool := y % 4 == 0 && (y % 100 != 0 || y % 400 == 0)

-- Number of days in a month of a given year (Gregorian calendar).
def daysInMonth (y m : Nat) : Nat :=
  if m = 1 then 31
  else if m = 2 then (if isLeap y then 29 else 28)
  else if m = 3 then 31
  else if m = 4 then 30
  else if m = 5 then 31
  else if m = 6 then 30
  else if m = 7 then 31
  else if m = 8 then 31
  else if m = 9 then 30
  else if m = 10 then 31
  else if m = 11 then 30
  else if m = 12 then 31
  else 0

-- The successor calendar date: the effect of adding datetime.timedelta(days=1).
-- Python caps dates at year 9999 (OverflowError past date.max); the model uses
-- unbounded years, as Python ints and the calendar arithmetic are otherwise
-- exact.
def nextDate (d : Date) : Date :=
  if d.day < daysInMonth d.year d.month then ⟨d.year, d.month, d.day + 1⟩
  else if d.month < 12 then ⟨d.year, d.month + 1, 1⟩
  else ⟨d.year + 1, 1, 1⟩

-- Character content of date.strftime with the YYYY-MM-DD format string:
-- the year zero-padded to four digits, month and day to two, dash-separated.
def Date.toISOChars (d : Date) : List Char :=
  padLeft 4 (natDigits d.year) ++ '-' :: (padLeft 2 (natDigits d.month) ++ '-' :: padLeft 2 (natDigits d.day))

-- ISO 8601 date string, the dictionary key used by generate_study_plan.
def Date.toISO (d : Date) : String := ⟨d.toISOChars⟩

-- Validity of a date value, as enforced by the datetime.date constructor.
def Date.Valid (d : Date) : Prop :=
  1 ≤ d.month ∧ d.month ≤ 12 ∧ 1 ≤ d.day ∧ d.day ≤ daysInMonth d.year d.month

-- Monotone numeric key of a date (used only in proofs, to order dates).
def lexKey (d : Date) : Nat := d.year * 10000 + d.month * 100 + d.day

-- The list of n consecutive calendar dates beginning at a start date,
-- mirroring the current_date iteration of generate_study_plan.
def datesList : Date → Nat → List Date
  | _, 0 => []
  | cur, n+1 => cur :: datesList (nextDate cur) n

-- Boolean test that one character list begins with another.
def strStarts : List Char → List Char → Bool
  | [], _ => true
  | _ :: _, [] => false
  | a :: as, b :: bs => a == b && strStarts as bs

-- Boolean substring containment of character lists, the semantics of the
-- Python expression needle in haystack on str values.
def strHas (pat : List Char) : List Char → Bool
  | [] => strStarts pat []
  | c :: t => strStarts pat (c :: t) || strHas pat t

-- The external sentiment classifier (self.nlp_model): given a text it returns
-- a label and a confidence score, or fails with an error message.  The source
-- reads result[0] of the pipeline output; the model exposes the pair directly.
abbrev Classifier := String → Except String (String × ℚ)

-- One scheduled study unit, the dict appended to study_blocks in
-- generate_daily_plan (fields subject, time, task, priority).
structure StudyBlock where
  subject : String
  time : ℚ
  task : String
  priority : String
deriving DecidableEq

-- One day's plan, the dict returned by generate_daily_plan.
structure DailyPlan where
  date : String
  study_blocks : List StudyBlock
  environment : String
  preferred_time : String
deriving DecidableEq

-- The state of a StudBud object after gather_student_info: subjects,
-- free-text fields, the per-subject strength/weakness/focus texts (the source
-- keeps dicts whose keys are exactly the subjects; following the documented
-- invariant that every subject has an entry, they are modelled as total
-- functions), the study preferences, and the study_plan dict.
structure StudBud where
  student_name : String
  subjects : List String
  goals : String
  strengths : String → String
  weaknesses : String → String
  areas_to_focus : String → String
  study_time : String
  study_duration : ℤ
  study_environment : String
  study_methods : List String
  study_plan : List (String × DailyPlan)

-- Assignment to a string-keyed Python dict: replace the value in place when
-- the key is present, append a new entry otherwise.
def dictInsert {V : Type} (m : List (String × V)) (k : String) (v : V) : List (String × V) :=
  if m.any (fun p => p.1 == k) then m.map (fun p => if p.1 = k then (k, v) else p) else m ++ [(k, v)]

-- Python dict lookup (first, hence unique, entry with the given key).
def lookupKey {V : Type} : List (String × V) → String → Option V
  | [], _ => none
  | p :: t, k => if p.1 = k then some p.2 else lookupKey t k

-- Source lines 53-70, analyze_student_data: the placeholder focus-area
-- analysis sets areas_to_focus[subject] = weaknesses[subject] for every
-- subject (identity onto weaknesses).
def analyze_student_data (s : StudBud) : StudBud := { s with areas_to_focus := s.weaknesses }

-- Source lines 128-157, prioritize_task.  The classifier call and field
-- extraction sit inside try/except: any failure is reported and the method
-- returns Medium.  On success the fixed rules run in order: strongly negative
-- sentiment yields High, else a weakness-substring match yields Medium, else
-- Low.  The returned list holds the messages the method prints.
def prioritize_task (s : StudBud) (cl : Classifier) (subject task : String) : String × List String :=
  match cl task with
  | .error e => (r"Medium", [r"Error performing sentiment analysis: " ++ e ++ ".  Defaulting to medium priority."])
  | .ok (label, score) =>
    if label = "NEGATIVE" ∧ 7/10 < score then (r"High", [])
    else if strHas (s.weaknesses subject).data task.data then (r"Medium", [])
    else (r"Low", [])

-- Python random.choice on a list: an IndexError on an empty sequence,
-- otherwise the element at the (injected) random index.
def random_choice (l : List String) (k : Nat) : Except String String :=
  match l with
  | [] => .error "IndexError: cannot choose from an empty sequence"
  | _ :: _ => .ok (l.getD (k % l.length) (r""))

-- The task text composed at source line 112.
def mkTask (s : StudBud) (subj method : String) : String :=
  "Review " ++ s.areas_to_focus subj ++ " using " ++ method

-- Source lines 107-108: available time divided by the subject count (Python
-- true division), floored at half an hour.  Calling generate_daily_plan with
-- no subjects raises ZeroDivisionError in Python; generate_study_plan guards
-- against that case, and theorems about this function assume subjects ≠ [].
def timePerSubject (s : StudBud) : ℚ :=
  max (1/2) ((s.study_duration : ℚ) / (s.subjects.length : ℚ))

-- The block-building loop of generate_daily_plan (source lines 110-118): for
-- each subject in order, draw a study method (the i-th random draw of the
-- day), compose the task text, prioritize it, and emit a StudyBlock.
def buildBlocks (s : StudBud) (cl : Classifier) (pk : Nat → Nat) : Nat → List String → ℚ → Except String (List StudyBlock)
  | _, [], _ => .ok []
  | i, subj :: rest, tps =>
    match random_choice s.study_methods (pk i) with
    | .error e => .error e
    | .ok method =>
      match buildBlocks s cl pk (i+1) rest tps with
      | .error e => .error e
      | .ok blocks =>
        .ok ({ subject := subj, time := tps, task := mkTask s subj method,
               priority := (prioritize_task s cl subj (mkTask s subj method)).1 } :: blocks)

-- Source lines 92-126, generate_daily_plan: build one block per subject and
-- assemble the daily dict with the date string and the copied preferences.
def generate_daily_plan (s : StudBud) (cl : Classifier) (pk : Nat → Nat) (date : Date) : Except String DailyPlan :=
  match buildBlocks s cl pk 0 s.subjects (timePerSubject s) with
  | .error e => .error e
  | .ok blocks =>
    .ok { date := date.toISO, study_blocks := blocks,
          environment := s.study_environment, preferred_time := s.study_time }

-- The day loop of generate_study_plan (source lines 87-90): num_days
-- iterations, each storing the daily plan under the ISO key of the current
-- date and stepping the date by one day.  pks i is the random source for
-- day i.
def genLoop (s : StudBud) (cl : Classifier) (pks : Nat → Nat → Nat) : Date → Nat → Nat → List (String × DailyPlan) → Except String (List (String × DailyPlan))
  | _, 0, _, plan => .ok plan
  | cur, n+1, i, plan =>
    match generate_daily_plan s cl (pks i) cur with
    | .error e => .error e
    | .ok dp => genLoop s cl pks (nextDate cur) n (i+1) (dictInsert plan cur.toISO dp)

-- Source lines 72-90, generate_study_plan.  With no subjects it prints a
-- message and returns early (no exception is raised).  Otherwise it runs the
-- day loop over range(num_days), which iterates max(num_days, 0) times since
-- range of a non-positive int is empty.
def generate_study_plan (s : StudBud) (cl : Classifier) (pks : Nat → Nat → Nat) (start : Date) (numDays : ℤ) : Except String (StudBud × List String) :=
  match s.subjects with
  | [] => .ok (s, [r"No subjects defined. Please gather student info first."])
  | _ :: _ =>
    match genLoop s cl pks start numDays.toNat 0 s.study_plan with
    | .error e => .error e
    | .ok plan => .ok ({ s with study_plan := plan }, [])

-- The method random.choice returns when the methods list is non-empty.
def chooseMethod (s : StudBud) (k : Nat) : String :=
  s.study_methods.getD (k % s.study_methods.length) (r"")

-- Exception-free image of buildBlocks, equal to it when study_methods ≠ [].
def buildBlocksP (s : StudBud) (cl : Classifier) (pk : Nat → Nat) : Nat → List String → ℚ → List StudyBlock
  | _, [], _ => []
  | i, subj :: rest, tps =>
    { subject := subj, time := tps, task := mkTask s subj (chooseMethod s (pk i)),
      priority := (prioritize_task s cl subj (mkTask s subj (chooseMethod s (pk i)))).1 } :: buildBlocksP s cl pk (i+1) rest tps

-- Exception-free image of generate_daily_plan for non-empty methods.
def generate_daily_planP (s : StudBud) (cl : Classifier) (pk : Nat → Nat) (date : Date) : DailyPlan :=
  { date := date.toISO, study_blocks := buildBlocksP s cl pk 0 s.subjects (timePerSubject s),
    environment := s.study_environment, preferred_time := s.study_time }

-- The entries generate_study_plan appends when generation starts from an
-- empty dict: one (ISO key, daily plan) pair per consecutive date.
def entriesP (s : StudBud) (cl : Classifier) (pks : Nat → Nat → Nat) : Date → Nat → Nat → List (String × DailyPlan)
  | _, 0, _ => []
  | cur, n+1, i => (cur.toISO, generate_daily_planP s cl (pks i) cur) :: entriesP s cl pks (nextDate cur) n (i+1)

-- The JSON value tree, the data shape json.dump writes and json.load reads.
-- Numbers are the exact rationals of the model; CPython round-trips the
-- floats appearing here (repr-based shortest output) exactly.
inductive Json where
  | str : String → Json
  | num : ℚ → Json
  | arr : List Json → Json
  | obj : List (String × Json) → Json

-- The JSON object json.dump produces for one study-block dict.
def encodeBlock (b : StudyBlock) : Json :=
  .obj [(r"subject", .str b.subject), (r"time", .num b.time), (r"task", .str b.task), (r"priority", .str b.priority)]

-- Reading a study-block object back (the documented persisted format).
def decodeBlock : Json → Option StudyBlock
  | .obj [(r"subject", .str subj), (r"time", .num t), (r"task", .str ta), (r"priority", .str p)] =>
    some { subject := subj, time := t, task := ta, priority := p }
  | _ => none

-- Reading a list of study-block objects back.
def decodeBlocks : List Json → Option (List StudyBlock)
  | [] => some []
  | j :: t =>
    match decodeBlock j, decodeBlocks t with
    | some b, some bs => some (b :: bs)
    | _, _ => none

-- The JSON object json.dump produces for one daily-plan dict.
def encodeDaily (dp : DailyPlan) : Json :=
  .obj [(r"date", .str dp.date), (r"study_blocks", .arr (dp.study_blocks.map encodeBlock)),
        (r"environment", .str dp.environment), (r"preferred_time", .str dp.preferred_time)]

-- Reading a daily-plan object back.
def decodeDaily : Json → Option DailyPlan
  | .obj [(r"date", .str d), (r"study_blocks", .arr bs), (r"environment", .str env), (r"preferred_time", .str pt)] =>
    match decodeBlocks bs with
    | some blocks => some { date := d, study_blocks := blocks, environment := env, preferred_time := pt }
    | none => none
  | _ => none

-- The top-level JSON object for the study_plan dict.
def encodeStudyPlan (plan : List (String × DailyPlan)) : Json :=
  .obj (plan.map (fun p => (p.1, encodeDaily p.2)))

-- Reading the top-level entries back.
def decodeEntries : List (String × Json) → Option (List (String × DailyPlan))
  | [] => some []
  | (k, j) :: t =>
    match decodeDaily j, decodeEntries t with
    | some dp, some rest => some ((k, dp) :: rest)
    | _, _ => none

-- Reading a persisted study plan back.
def decodeStudyPlan : Json → Option (List (String × DailyPlan))
  | .obj l => decodeEntries l
  | _ => none

-- Source lines 182-192, save_study_plan: serialize self.study_plan with
-- json.dump.  Modelled at the JSON value level.
def save_study_plan (s : StudBud) : Json := encodeStudyPlan s.study_plan

-- Source lines 194-206, load_study_plan.  The file argument is none when the
-- file is missing (the FileNotFoundError branch, which prints and leaves the
-- state untouched) and otherwise carries the parsed plan that json.load
-- yields, which the source assigns to self.study_plan.  The second component
-- models what the method prints.
def load_study_plan (s : StudBud) (filename : String) (file : Option (List (String × DailyPlan))) : StudBud × List String :=
  match file with
  | none => (s, ["File not found: " ++ filename])
  | some plan => ({ s with study_plan := plan }, ["Study plan loaded from " ++ filename])

-- Concrete values used by the witness theorems: the worked example of the
-- specification (subjects Math and History, one hour a day, method
-- Flashcards).
def exState : StudBud :=
  { student_name := r"Alice"
  , subjects := [r"Math", r"History"]
  , goals := r"Get an A"
  , strengths := fun _ => r"Problem-solving"
  , weaknesses := fun subj => if subj = "Math" then r"Calculus" else r"Essays"
  , areas_to_focus := fun subj => if subj = "Math" then r"Calculus" else r"Essays"
  , study_time := r"Morning"
  , study_duration := 1
  , study_environment := r"Library"
  , study_methods := [r"Flashcards"]
  , study_plan := [] }

-- A StudBud state with no subjects (gather_student_info never ran).
def emptyState : StudBud :=
  { exState with subjects := [] }

-- A classifier stub that always reports strong negative sentiment.
def exClassifyNeg : Classifier := fun _ => .ok (r"NEGATIVE", 85/100)

-- A classifier stub that always fails.
def exClassifyFail : Classifier := fun _ => .error "model unavailable"

-- A deterministic stand-in for the injected random source.
def exPick : Nat → Nat → Nat := fun _ _ => 0

-- A concrete start date for the witnesses.
def exDate : Date := ⟨2024, 1, 1⟩

-- A daily plan used as a pre-existing entry in the frame witness.
def exDaily : DailyPlan :=
  { date := r"2020-01-01", study_blocks := [], environment := r"Library", preferred_time := r"Morning" }

-- The example state with a pre-existing plan entry under an old date.
def exState2 : StudBud := { exState with study_plan := [(r"2020-01-01", exDaily)] }

-- Boolean test that a character is not the dash separator.
def notDash (c : Char) : Bool := !(c == '-')

-- Reading a decimal field back into a number (accumulator form).
def readNatAux : Nat → List Char → Nat
  | a, [] => a
  | a, c :: t => readNatAux (a * 10 + (c.toNat - 48)) t

-- Reading a decimal field back into a number.
def readNat (l : List Char) : Nat := readNatAux 0 l

-- Decoding the three numeric fields of a YYYY-MM-DD character string.
def parseISO (l : List Char) : Nat × Nat × Nat :=
  (readNat (l.takeWhile notDash),
   readNat (((l.dropWhile notDash).tail).takeWhile notDash),
   readNat ((((l.dropWhile notDash).tail).dropWhile notDash).tail))

-- Facts about decimal digit characters.
theorem digitChar_toNat : ∀ k, k < 10 → (digitChar k).toNat = 48 + k := by decide

theorem digitChar_bounds : ∀ k, k < 10 → 48 ≤ (digitChar k).toNat ∧ (digitChar k).toNat ≤ 57 := by decide

-- The fuel argument of natDigitsAux is irrelevant once it exceeds the input.
theorem natDigitsAux_fuel : ∀ f g n, n < f → n < g → natDigitsAux f n = natDigitsAux g n := by
  intro f
  induction f with
  | zero => intro g n h _; omega
  | succ f ih =>
    intro g n hf hg
    cases g with
    | zero => omega
    | succ g =>
      by_cases h10 : n < 10
      · simp [natDigitsAux, h10]
      · have hd : n / 10 < n := Nat.div_lt_self (by omega) (by omega)
        simp only [natDigitsAux, if_neg h10]
        rw [ih g (n / 10) (by omega) (by omega)]

-- Unfolding equation for natDigits.
theorem natDigits_eq (n : Nat) :
    natDigits n = if n < 10 then [digitChar n] else natDigits (n / 10) ++ [digitChar (n % 10)] := by
  have h1 : natDigits n = if n < 10 then [digitChar n] else natDigitsAux n (n / 10) ++ [digitChar (n % 10)] := rfl
  by_cases h10 : n < 10
  · rw [h1, if_pos h10, if_pos h10]
  · have hd : n / 10 < n := Nat.div_lt_self (by omega) (by omega)
    rw [h1, if_neg h10, if_neg h10]
    have h2 : natDigitsAux n (n / 10) = natDigits (n / 10) := by
      unfold natDigits
      exact natDigitsAux_fuel n (n / 10 + 1) (n / 10) (by omega) (by omega)
    rw [h2]

-- Every character of a decimal representation is a digit character.
theorem natDigits_mem (n : Nat) : ∀ c ∈ natDigits n, 48 ≤ c.toNat ∧ c.toNat ≤ 57 := by
  induction n using Nat.strong_induction_on with
  | _ n ih =>
    rw [natDigits_eq n]
    by_cases h10 : n < 10
    · simp only [if_pos h10, List.mem_singleton]
      rintro c rfl
      exact digitChar_bounds n h10
    · simp only [if_neg h10, List.mem_append, List.mem_singleton]
      rintro c (hc | rfl)
      · exact ih (n / 10) (Nat.div_lt_self (by omega) (by omega)) c hc
      · exact digitChar_bounds (n % 10) (Nat.mod_lt n (by omega))

-- Characters of a zero-padded decimal field are never dashes.
theorem padLeft_notDash (w n : Nat) : ∀ c ∈ padLeft w (natDigits n), notDash c = true := by
  intro c hc
  rcases List.mem_append.mp hc with h | h
  · have := List.eq_of_mem_replicate h
    subst this
    decide
  · have hb := natDigits_mem n c h
    have hne : c ≠ '-' := by
      intro he
      rw [he] at hb
      exact absurd hb (by decide)
    simp [notDash, hne]

-- Splitting a character list at the first dash.
theorem split_at_dash (xs ys : List Char) (h : ∀ c ∈ xs, notDash c = true) :
    List.takeWhile notDash (xs ++ '-' :: ys) = xs ∧ List.dropWhile notDash (xs ++ '-' :: ys) = '-' :: ys := by
  have hdash : notDash '-' = false := by decide
  induction xs with
  | nil => constructor <;> simp [List.takeWhile_cons, List.dropWhile_cons, hdash]
  | cons a t ih =>
    have ha : notDash a = true := h a (List.mem_cons_self a t)
    have ht := ih (fun c hc => h c (List.mem_cons_of_mem a hc))
    constructor
    · simpa [List.takeWhile_cons, ha] using ht.1
    · simpa [List.dropWhile_cons, ha] using ht.2

theorem readNatAux_append (a : Nat) (xs ys : List Char) :
    readNatAux a (xs ++ ys) = readNatAux (readNatAux a xs) ys := by
  induction xs generalizing a with
  | nil => rfl
  | cons c t ih => exact ih (a * 10 + (c.toNat - 48))

theorem readNatAux_natDigits : ∀ n a, readNatAux a (natDigits n) = a * 10 ^ (natDigits n).length + n := by
  intro n
  induction n using Nat.strong_induction_on with
  | _ n ih =>
    intro a
    rw [natDigits_eq n]
    by_cases h10 : n < 10
    · rw [if_pos h10]
      have h1 : readNatAux a [digitChar n] = a * 10 + ((digitChar n).toNat - 48) := rfl
      rw [h1, digitChar_toNat n h10]
      simp only [List.length_singleton, pow_one]
      omega
    · have hd : n / 10 < n := Nat.div_lt_self (by omega) (by omega)
      rw [if_neg h10, readNatAux_append, List.length_append, List.length_singleton]
      rw [ih (n / 10) hd a]
      have h1 : ∀ b : Nat, readNatAux b [digitChar (n % 10)] = b * 10 + ((digitChar (n % 10)).toNat - 48) := fun b => rfl
      rw [h1, digitChar_toNat (n % 10) (Nat.mod_lt n (by omega))]
      rw [pow_succ, ← mul_assoc]
      have := Nat.div_add_mod n 10
      set X := a * 10 ^ (natDigits (n / 10)).length
      omega

theorem readNatAux_zeros : ∀ k, readNatAux 0 (List.replicate k '0') = 0 := by
  intro k
  induction k with
  | zero => rfl
  | succ k ih =>
    have h1 : readNatAux 0 (List.replicate (k + 1) '0') = readNatAux (0 * 10 + ('0'.toNat - 48)) (List.replicate k '0') := rfl
    have h2 : 0 * 10 + ('0'.toNat - 48) = 0 := by decide
    rw [h1, h2]
    exact ih

-- Reading back a zero-padded decimal field recovers the number.
theorem readNat_padLeft (w n : Nat) : readNat (padLeft w (natDigits n)) = n := by
  unfold readNat padLeft
  rw [readNatAux_append, readNatAux_zeros, readNatAux_natDigits]
  omega

-- Parsing inverts the ISO formatting, for every date value.
theorem parseISO_toISO (d : Date) : parseISO d.toISOChars = (d.year, d.month, d.day) := by
  unfold parseISO Date.toISOChars
  obtain ⟨h1, h2⟩ := split_at_dash (padLeft 4 (natDigits d.year))
    (padLeft 2 (natDigits d.month) ++ '-' :: padLeft 2 (natDigits d.day)) (padLeft_notDash 4 d.year)
  rw [h1, h2]
  simp only [List.tail_cons]
  obtain ⟨h3, h4⟩ := split_at_dash (padLeft 2 (natDigits d.month))
    (padLeft 2 (natDigits d.day)) (padLeft_notDash 2 d.month)
  rw [h3, h4]
  simp only [List.tail_cons]
  rw [readNat_padLeft, readNat_padLeft, readNat_padLeft]

-- Distinct dates have distinct ISO strings.
theorem toISO_inj : Function.Injective Date.toISO := by
  intro a b h
  have hc : a.toISOChars = b.toISOChars := congrArg String.data h
  have hp := congrArg parseISO hc
  rw [parseISO_toISO, parseISO_toISO] at hp
  cases a
  cases b
  simp only [Prod.mk.injEq] at hp
  obtain ⟨hy, hm, hd⟩ := hp
  simp_all

-- Every month of a year in range has at least one day.
theorem daysInMonth_pos (y m : Nat) (h1 : 1 ≤ m) (h12 : m ≤ 12) : 1 ≤ daysInMonth y m := by
  interval_cases m <;> simp [daysInMonth] <;> cases isLeap y <;> simp

-- No month has more than 31 days.
theorem daysInMonth_le (y m : Nat) : daysInMonth y m ≤ 31 := by
  by_cases hm : m ≤ 12
  · by_cases h0 : 1 ≤ m
    · interval_cases m <;> simp [daysInMonth] <;> cases isLeap y <;> simp
    · have e0 : m = 0 := by omega
      subst e0
      simp [daysInMonth]
  · have e1 : m ≠ 1 := by omega
    have e2 : m ≠ 2 := by omega
    have e3 : m ≠ 3 := by omega
    have e4 : m ≠ 4 := by omega
    have e5 : m ≠ 5 := by omega
    have e6 : m ≠ 6 := by omega
    have e7 : m ≠ 7 := by omega
    have e8 : m ≠ 8 := by omega
    have e9 : m ≠ 9 := by omega
    have e10 : m ≠ 10 := by omega
    have e11 : m ≠ 11 := by omega
    have e12 : m ≠ 12 := by omega
    simp [daysInMonth, e1, e2, e3, e4, e5, e6, e7, e8, e9, e10, e11, e12]

-- Stepping a valid date yields a valid date.
theorem nextDate_valid (d : Date) (h : d.Valid) : (nextDate d).Valid := by
  obtain ⟨h1, h2, h3, h4⟩ := h
  by_cases ha : d.day < daysInMonth d.year d.month
  · have he : nextDate d = ⟨d.year, d.month, d.day + 1⟩ := by rw [nextDate, if_pos ha]
    rw [he]
    refine ⟨h1, h2, ?_, ?_⟩
    · show 1 ≤ d.day + 1
      omega
    · show d.day + 1 ≤ daysInMonth d.year d.month
      omega
  · by_cases hb : d.month < 12
    · have he : nextDate d = ⟨d.year, d.month + 1, 1⟩ := by rw [nextDate, if_neg ha, if_pos hb]
      rw [he]
      refine ⟨?_, ?_, le_refl 1, ?_⟩
      · show 1 ≤ d.month + 1
        omega
      · show d.month + 1 ≤ 12
        omega
      · exact daysInMonth_pos d.year (d.month + 1) (by omega) (by omega)
    · have he : nextDate d = ⟨d.year + 1, 1, 1⟩ := by rw [nextDate, if_neg ha, if_neg hb]
      rw [he]
      refine ⟨le_refl 1, ?_, le_refl 1, daysInMonth_pos (d.year + 1) 1 (le_refl 1) (by omega)⟩
      show (1 : Nat) ≤ 12
      omega

-- Stepping a valid date strictly increases its numeric key.
theorem lexKey_lt_nextDate (d : Date) (h : d.Valid) : lexKey d < lexKey (nextDate d) := by
  obtain ⟨h1, h2, h3, h4⟩ := h
  have hd31 : d.day ≤ 31 := le_trans h4 (daysInMonth_le d.year d.month)
  by_cases ha : d.day < daysInMonth d.year d.month
  · have he : nextDate d = ⟨d.year, d.month, d.day + 1⟩ := by rw [nextDate, if_pos ha]
    rw [he]
    show lexKey d < d.year * 10000 + d.month * 100 + (d.day + 1)
    unfold lexKey
    omega
  · by_cases hb : d.month < 12
    · have he : nextDate d = ⟨d.year, d.month + 1, 1⟩ := by rw [nextDate, if_neg ha, if_pos hb]
      rw [he]
      show lexKey d < d.year * 10000 + (d.month + 1) * 100 + 1
      unfold lexKey
      omega
    · have he : nextDate d = ⟨d.year + 1, 1, 1⟩ := by rw [nextDate, if_neg ha, if_neg hb]
      rw [he]
      show lexKey d < (d.year + 1) * 10000 + 1 * 100 + 1
      unfold lexKey
      omega

-- All dates in an iterated date list are valid.
theorem datesList_valid (n : Nat) : ∀ d : Date, d.Valid → ∀ x ∈ datesList d n, x.Valid := by
  induction n with
  | zero => intro d _ x hx; simp [datesList] at hx
  | succ n ih =>
    intro d hd x hx
    simp only [datesList, List.mem_cons] at hx
    rcases hx with rfl | hx
    · exact hd
    · exact ih (nextDate d) (nextDate_valid d hd) x hx

-- Every date after the head of an iterated date list has a larger key.
theorem datesList_lt (n : Nat) : ∀ d : Date, d.Valid → ∀ x ∈ datesList (nextDate d) n, lexKey d < lexKey x := by
  induction n with
  | zero => simp [datesList]
  | succ n ih =>
    intro d hd x hx
    simp only [datesList, List.mem_cons] at hx
    rcases hx with rfl | hx
    · exact lexKey_lt_nextDate d hd
    · exact lt_trans (lexKey_lt_nextDate d hd) (ih (nextDate d) (nextDate_valid d hd) x hx)

-- Iterated dates are strictly increasing, hence pairwise distinct.
theorem datesList_pairwise (n : Nat) : ∀ d : Date, d.Valid → (datesList d n).Pairwise (fun a b => lexKey a < lexKey b) := by
  induction n with
  | zero => intro d _; simp [datesList]
  | succ n ih =>
    intro d hd
    simp only [datesList, List.pairwise_cons]
    exact ⟨fun x hx => datesList_lt n d hd x hx, ih (nextDate d) (nextDate_valid d hd)⟩

-- The ISO keys of the iterated dates are pairwise distinct.
theorem datesList_keys_nodup (n : Nat) (d : Date) (hd : d.Valid) : ((datesList d n).map Date.toISO).Nodup := by
  have hp := datesList_pairwise n d hd
  have hne : (datesList d n).Pairwise (fun a b => a ≠ b) :=
    hp.imp (fun hab he => absurd (he ▸ hab) (lt_irrefl _))
  exact List.Nodup.map toISO_inj hne

-- A list starts with itself followed by anything.
theorem strStarts_append (xs ys : List Char) : strStarts xs (xs ++ ys) = true := by
  induction xs with
  | nil => rfl
  | cons a t ih =>
    have h1 : strStarts (a :: t) ((a :: t) ++ ys) = ((a == a) && strStarts t (t ++ ys)) := rfl
    rw [h1, ih]
    simp

-- A match at the front of the haystack is a substring occurrence.
theorem strHas_of_starts (pat hay : List Char) (h : strStarts pat hay = true) : strHas pat hay = true := by
  cases hay with
  | nil => exact h
  | cons c t =>
    have h1 : strHas pat (c :: t) = (strStarts pat (c :: t) || strHas pat t) := rfl
    rw [h1, h]
    simp

-- The middle part of a concatenation is always a substring of it.
theorem strHas_append (xs ys zs : List Char) : strHas ys (xs ++ ys ++ zs) = true := by
  induction xs with
  | nil => exact strHas_of_starts ys (ys ++ zs) (strStarts_append ys zs)
  | cons c t ih =>
    have h1 : strHas ys ((c :: t) ++ ys ++ zs) = (strStarts ys ((c :: t) ++ ys ++ zs) || strHas ys (t ++ ys ++ zs)) := rfl
    rw [h1, ih]
    simp

-- A successful random.choice returns the element at the random index.
theorem random_choice_ok (l : List String) (k : Nat) (m : String)
    (h : random_choice l k = .ok m) : m = l.getD (k % l.length) (r"") := by
  cases l with
  | nil => exact Except.noConfusion h
  | cons a t => exact (Except.ok.inj h).symm

-- Non-empty method lists make random.choice succeed with chooseMethod.
theorem random_choice_methods (s : StudBud) (k : Nat) (hm : s.study_methods ≠ []) :
    random_choice s.study_methods k = .ok (chooseMethod s k) := by
  unfold random_choice chooseMethod
  cases hml : s.study_methods with
  | nil => exact absurd hml hm
  | cons a t => rfl

-- One-step unfolding of the block-building loop.
theorem buildBlocks_cons (s : StudBud) (cl : Classifier) (pk : Nat → Nat) (i : Nat) (subj : String) (rest : List String) (tps : ℚ) :
    buildBlocks s cl pk i (subj :: rest) tps =
      match random_choice s.study_methods (pk i) with
      | .error e => .error e
      | .ok method =>
        match buildBlocks s cl pk (i + 1) rest tps with
        | .error e => .error e
        | .ok blocks =>
          .ok ({ subject := subj, time := tps, task := mkTask s subj method,
                 priority := (prioritize_task s cl subj (mkTask s subj method)).1 } :: blocks) := rfl

-- With a non-empty method list the block builder never fails and computes
-- its pure image.
theorem buildBlocks_pure (s : StudBud) (cl : Classifier) (pk : Nat → Nat) (hm : s.study_methods ≠ []) :
    ∀ (l : List String) (i : Nat) (tps : ℚ), buildBlocks s cl pk i l tps = .ok (buildBlocksP s cl pk i l tps) := by
  intro l
  induction l with
  | nil => intro i tps; rfl
  | cons subj rest ih =>
    intro i tps
    rw [buildBlocks_cons, random_choice_methods s (pk i) hm, ih (i + 1) tps]
    rfl

-- A successful block builder run yields exactly the pure image.
theorem buildBlocks_ok (s : StudBud) (cl : Classifier) (pk : Nat → Nat) :
    ∀ (l : List String) (i : Nat) (tps : ℚ) (bs : List StudyBlock),
      buildBlocks s cl pk i l tps = .ok bs → bs = buildBlocksP s cl pk i l tps := by
  intro l
  induction l with
  | nil => intro i tps bs h; exact (Except.ok.inj h).symm
  | cons subj rest ih =>
    intro i tps bs h
    rw [buildBlocks_cons] at h
    cases hrc : random_choice s.study_methods (pk i) with
    | error e => rw [hrc] at h; exact Except.noConfusion h
    | ok method =>
      rw [hrc] at h
      cases hbb : buildBlocks s cl pk (i + 1) rest tps with
      | error e => rw [hbb] at h; exact Except.noConfusion h
      | ok blocks =>
        rw [hbb] at h
        have hme := random_choice_ok s.study_methods (pk i) method hrc
        have hbl := ih (i + 1) tps blocks hbb
        have hinj := Except.ok.inj h
        rw [← hinj, hme, hbl]
        rfl

-- The pure block builder emits the subjects in order, one block each.
theorem buildBlocksP_map_subject (s : StudBud) (cl : Classifier) (pk : Nat → Nat) :
    ∀ (l : List String) (i : Nat) (tps : ℚ),
      (buildBlocksP s cl pk i l tps).map (fun b => b.subject) = l := by
  intro l
  induction l with
  | nil => intro i tps; rfl
  | cons subj rest ih =>
    intro i tps
    simp only [buildBlocksP, List.map_cons]
    rw [ih (i + 1) tps]

-- The pure block builder emits one block per subject.
theorem buildBlocksP_length (s : StudBud) (cl : Classifier) (pk : Nat → Nat)
    (l : List String) (i : Nat) (tps : ℚ) :
    (buildBlocksP s cl pk i l tps).length = l.length := by
  have h := congrArg List.length (buildBlocksP_map_subject s cl pk l i tps)
  rw [List.length_map] at h
  exact h

-- Every block the pure builder emits carries the common time allocation.
theorem buildBlocksP_map_time (s : StudBud) (cl : Classifier) (pk : Nat → Nat) :
    ∀ (l : List String) (i : Nat) (tps : ℚ),
      (buildBlocksP s cl pk i l tps).map (fun b => b.time) = List.replicate l.length tps := by
  intro l
  induction l with
  | nil => intro i tps; rfl
  | cons subj rest ih =>
    intro i tps
    simp only [buildBlocksP, List.map_cons, List.length_cons, List.replicate]
    rw [ih (i + 1) tps]

-- The block at position j covers the subject at position j.
theorem buildBlocksP_get_subject (s : StudBud) (cl : Classifier) (pk : Nat → Nat) :
    ∀ (l : List String) (i j : Nat) (tps : ℚ) (d0 : StudyBlock), j < l.length →
      ((buildBlocksP s cl pk i l tps).getD j d0).subject = l.getD j (r"") := by
  intro l
  induction l with
  | nil => intro i j tps d0 h; exact absurd h (by simp)
  | cons subj rest ih =>
    intro i j tps d0 h
    cases j with
    | zero => rfl
    | succ j =>
      have h1 : j < rest.length := by simpa using h
      simp only [buildBlocksP, List.getD_cons_succ]
      exact ih (i + 1) j tps d0 h1

-- The block at position j carries the task text composed from the focus area
-- of its subject and the day's j-th random method draw.
theorem buildBlocksP_get_task (s : StudBud) (cl : Classifier) (pk : Nat → Nat) :
    ∀ (l : List String) (i j : Nat) (tps : ℚ) (d0 : StudyBlock), j < l.length →
      ((buildBlocksP s cl pk i l tps).getD j d0).task = mkTask s (l.getD j (r"")) (chooseMethod s (pk (i + j))) := by
  intro l
  induction l with
  | nil => intro i j tps d0 h; exact absurd h (by simp)
  | cons subj rest ih =>
    intro i j tps d0 h
    cases j with
    | zero => rfl
    | succ j =>
      have h1 : j < rest.length := by simpa using h
      have h2 : i + 1 + j = i + (j + 1) := by omega
      simp only [buildBlocksP, List.getD_cons_succ]
      rw [ih (i + 1) j tps d0 h1, h2]

-- With non-empty methods generate_daily_plan succeeds with its pure image.
theorem generate_daily_plan_pure (s : StudBud) (cl : Classifier) (pk : Nat → Nat) (date : Date)
    (hm : s.study_methods ≠ []) :
    generate_daily_plan s cl pk date = .ok (generate_daily_planP s cl pk date) := by
  unfold generate_daily_plan generate_daily_planP
  rw [buildBlocks_pure s cl pk hm s.subjects 0 (timePerSubject s)]

-- A successful generate_daily_plan yields exactly the pure image.
theorem generate_daily_plan_ok (s : StudBud) (cl : Classifier) (pk : Nat → Nat) (date : Date)
    (dp : DailyPlan) (h : generate_daily_plan s cl pk date = .ok dp) :
    dp = generate_daily_planP s cl pk date := by
  unfold generate_daily_plan at h
  cases hbb : buildBlocks s cl pk 0 s.subjects (timePerSubject s) with
  | error e => rw [hbb] at h; exact Except.noConfusion h
  | ok blocks =>
    rw [hbb] at h
    have hbl := buildBlocks_ok s cl pk s.subjects 0 (timePerSubject s) blocks hbb
    have hinj := Except.ok.inj h
    rw [← hinj, hbl]
    rfl

-- Inserting an absent key appends the new entry at the end (Python dicts
-- preserve insertion order).
theorem dictInsert_absent {V : Type} (m : List (String × V)) (k : String) (v : V)
    (h : ∀ p ∈ m, p.1 ≠ k) : dictInsert m k v = m ++ [(k, v)] := by
  unfold dictInsert
  have hany : m.any (fun p => p.1 == k) = false := by
    rw [List.any_eq_false]
    intro p hp
    simpa using h p hp
  rw [hany]
  simp

-- Replacing the entry of one key leaves lookups of other keys unchanged.
theorem lookupKey_replace {V : Type} (k0 : String) (v : V) (k : String) (h : k0 ≠ k) :
    ∀ (t : List (String × V)),
      lookupKey (t.map (fun p => if p.1 = k0 then (k0, v) else p)) k = lookupKey t k := by
  intro t
  induction t with
  | nil => rfl
  | cons p t ih =>
    by_cases hp : p.1 = k0
    · simp only [List.map_cons, if_pos hp, lookupKey, if_neg h]
      rw [ih]
      have hpk : ¬ p.1 = k := by rw [hp]; exact h
      rw [if_neg hpk]
    · simp only [List.map_cons, if_neg hp, lookupKey]
      by_cases hk : p.1 = k
      · rw [if_pos hk, if_pos hk]
      · rw [if_neg hk, if_neg hk, ih]

-- Appending an entry with a different key leaves a lookup unchanged.
theorem lookupKey_append_single {V : Type} (k0 : String) (v : V) (k : String) (h : k0 ≠ k) :
    ∀ (m : List (String × V)), lookupKey (m ++ [(k0, v)]) k = lookupKey m k := by
  intro m
  induction m with
  | nil => simp [lookupKey, if_neg h]
  | cons p t ih =>
    simp only [List.cons_append, lookupKey]
    by_cases hk : p.1 = k
    · rw [if_pos hk, if_pos hk]
    · rw [if_neg hk, if_neg hk]
      exact ih

-- Python dict assignment never disturbs the binding of any other key.
theorem lookupKey_dictInsert_ne {V : Type} (m : List (String × V)) (k0 : String) (v : V)
    (k : String) (h : k0 ≠ k) : lookupKey (dictInsert m k0 v) k = lookupKey m k := by
  unfold dictInsert
  by_cases hany : m.any (fun p => p.1 == k0) = true
  · rw [if_pos hany]
    exact lookupKey_replace k0 v k h m
  · rw [if_neg hany]
    exact lookupKey_append_single k0 v k h m

-- One-step unfolding of the day loop.
theorem genLoop_succ (s : StudBud) (cl : Classifier) (pks : Nat → Nat → Nat)
    (cur : Date) (n i : Nat) (plan : List (String × DailyPlan)) :
    genLoop s cl pks cur (n + 1) i plan =
      match generate_daily_plan s cl (pks i) cur with
      | .error e => .error e
      | .ok dp => genLoop s cl pks (nextDate cur) n (i + 1) (dictInsert plan cur.toISO dp) := rfl

-- A (successful) day loop never disturbs keys outside its date range.
theorem genLoop_frame (s : StudBud) (cl : Classifier) (pks : Nat → Nat → Nat) :
    ∀ (n : Nat) (cur : Date) (i : Nat) (p0 p1 : List (String × DailyPlan)),
      genLoop s cl pks cur n i p0 = .ok p1 →
      ∀ k, k ∉ (datesList cur n).map Date.toISO → lookupKey p1 k = lookupKey p0 k := by
  intro n
  induction n with
  | zero =>
    intro cur i p0 p1 h k _
    rw [← Except.ok.inj h]
  | succ n ih =>
    intro cur i p0 p1 h k hk
    rw [genLoop_succ] at h
    cases hdp : generate_daily_plan s cl (pks i) cur with
    | error e => rw [hdp] at h; exact Except.noConfusion h
    | ok dp =>
      rw [hdp] at h
      have hmem : k ∉ (datesList (nextDate cur) n).map Date.toISO ∧ cur.toISO ≠ k := by
        constructor
        · intro hx
          exact hk (by simp only [datesList, List.map_cons, List.mem_cons]; right; exact hx)
        · intro he
          exact hk (by simp only [datesList, List.map_cons, List.mem_cons]; left; exact he.symm)
      rw [ih (nextDate cur) (i + 1) (dictInsert p0 cur.toISO dp) p1 h k hmem.1]
      exact lookupKey_dictInsert_ne p0 cur.toISO dp k hmem.2

-- With distinct upcoming keys all absent from the accumulator, the day loop
-- appends exactly one entry per date, in date order.
theorem genLoop_append (s : StudBud) (cl : Classifier) (pks : Nat → Nat → Nat)
    (hm : s.study_methods ≠ []) :
    ∀ (n : Nat) (cur : Date) (i : Nat) (acc : List (String × DailyPlan)),
      (∀ x ∈ (datesList cur n).map Date.toISO, ∀ p ∈ acc, p.1 ≠ x) →
      ((datesList cur n).map Date.toISO).Nodup →
      genLoop s cl pks cur n i acc = .ok (acc ++ entriesP s cl pks cur n i) := by
  intro n
  induction n with
  | zero =>
    intro cur i acc _ _
    have h0 : entriesP s cl pks cur 0 i = [] := rfl
    rw [h0, List.append_nil]
    rfl
  | succ n ih =>
    intro cur i acc hdisj hnd
    rw [genLoop_succ, generate_daily_plan_pure s cl (pks i) cur hm]
    have hkey : ∀ p ∈ acc, p.1 ≠ cur.toISO :=
      hdisj cur.toISO (by simp [datesList])
    have hins := dictInsert_absent acc cur.toISO (generate_daily_planP s cl (pks i) cur) hkey
    have hnd1 : ((datesList (nextDate cur) n).map Date.toISO).Nodup := by
      simp only [datesList, List.map_cons, List.nodup_cons] at hnd
      exact hnd.2
    have hhead : cur.toISO ∉ (datesList (nextDate cur) n).map Date.toISO := by
      simp only [datesList, List.map_cons, List.nodup_cons] at hnd
      exact hnd.1
    have hdisj1 : ∀ x ∈ (datesList (nextDate cur) n).map Date.toISO,
        ∀ p ∈ acc ++ [(cur.toISO, generate_daily_planP s cl (pks i) cur)], p.1 ≠ x := by
      intro x hx p hp
      rcases List.mem_append.mp hp with hpa | hps
      · exact hdisj x (by simp only [datesList, List.map_cons, List.mem_cons]; right; exact hx) p hpa
      · have hp2 : p = (cur.toISO, generate_daily_planP s cl (pks i) cur) := by simpa using hps
        rw [hp2]
        intro he
        have he2 : cur.toISO = x := he
        apply hhead
        rw [he2]
        exact hx
    have hrec := ih (nextDate cur) (i + 1) (acc ++ [(cur.toISO, generate_daily_planP s cl (pks i) cur)]) hdisj1 hnd1
    show genLoop s cl pks (nextDate cur) n (i + 1) (dictInsert acc cur.toISO (generate_daily_planP s cl (pks i) cur)) = Except.ok (acc ++ entriesP s cl pks cur (n + 1) i)
    rw [hins, hrec]
    have he : entriesP s cl pks cur (n + 1) i = (cur.toISO, generate_daily_planP s cl (pks i) cur) :: entriesP s cl pks (nextDate cur) n (i + 1) := rfl
    rw [he]
    simp [List.append_assoc]

-- The generated entry list has one entry per date.
theorem entriesP_length (s : StudBud) (cl : Classifier) (pks : Nat → Nat → Nat) :
    ∀ (n : Nat) (cur : Date) (i : Nat), (entriesP s cl pks cur n i).length = n := by
  intro n
  induction n with
  | zero => intro cur i; rfl
  | succ n ih =>
    intro cur i
    simp only [entriesP, List.length_cons]
    rw [ih (nextDate cur) (i + 1)]

-- The generated keys are the ISO strings of the consecutive dates.
theorem entriesP_keys (s : StudBud) (cl : Classifier) (pks : Nat → Nat → Nat) :
    ∀ (n : Nat) (cur : Date) (i : Nat),
      (entriesP s cl pks cur n i).map Prod.fst = (datesList cur n).map Date.toISO := by
  intro n
  induction n with
  | zero => intro cur i; rfl
  | succ n ih =>
    intro cur i
    simp only [entriesP, datesList, List.map_cons]
    rw [ih (nextDate cur) (i + 1)]

-- Decoding inverts encoding for one study block.
theorem decodeBlock_encodeBlock (b : StudyBlock) : decodeBlock (encodeBlock b) = some b := rfl

-- Decoding inverts encoding for a list of study blocks.
theorem decodeBlocks_map : ∀ (bs : List StudyBlock), decodeBlocks (bs.map encodeBlock) = some bs := by
  intro bs
  induction bs with
  | nil => rfl
  | cons b t ih =>
    have h1 : decodeBlocks (encodeBlock b :: t.map encodeBlock) =
        match decodeBlock (encodeBlock b), decodeBlocks (t.map encodeBlock) with
        | some x, some xs => some (x :: xs)
        | _, _ => none := rfl
    rw [List.map_cons, h1, decodeBlock_encodeBlock, ih]

-- Decoding inverts encoding for one daily plan.
theorem decodeDaily_encodeDaily (dp : DailyPlan) : decodeDaily (encodeDaily dp) = some dp := by
  have h1 : decodeDaily (encodeDaily dp) =
      match decodeBlocks (dp.study_blocks.map encodeBlock) with
      | some blocks => some { date := dp.date, study_blocks := blocks,
                              environment := dp.environment, preferred_time := dp.preferred_time }
      | none => none := rfl
  rw [h1, decodeBlocks_map]

-- Decoding inverts encoding for the top-level entry list.
theorem decodeEntries_map : ∀ (plan : List (String × DailyPlan)),
    decodeEntries (plan.map (fun p => (p.1, encodeDaily p.2))) = some plan := by
  intro plan
  induction plan with
  | nil => rfl
  | cons p t ih =>
    have h1 : decodeEntries ((p.1, encodeDaily p.2) :: t.map (fun q => (q.1, encodeDaily q.2))) =
        match decodeDaily (encodeDaily p.2), decodeEntries (t.map (fun q => (q.1, encodeDaily q.2))) with
        | some dp, some rest => some ((p.1, dp) :: rest)
        | _, _ => none := rfl
    rw [List.map_cons, h1, decodeDaily_encodeDaily, ih]

-- Decoding inverts encoding for a whole study plan.
theorem decodeStudyPlan_encodeStudyPlan (plan : List (String × DailyPlan)) :
    decodeStudyPlan (encodeStudyPlan plan) = some plan := decodeEntries_map plan

-- Unfolding of prioritize_task on classifier success.
theorem prioritize_task_ok_eq (s : StudBud) (cl : Classifier) (subject task label : String) (score : ℚ)
    (h : cl task = .ok (label, score)) :
    prioritize_task s cl subject task =
      if label = "NEGATIVE" ∧ 7/10 < score then (r"High", [])
      else if strHas (s.weaknesses subject).data task.data then (r"Medium", ([] : List String))
      else (r"Low", []) := by
  unfold prioritize_task
  rw [h]

/-- C1: prioritize_task implements the fixed three-rule decision procedure on
classifier success: label NEGATIVE with score strictly above 0.7 yields High;
otherwise a weakness-substring match in the task description yields Medium;
otherwise Low.  The sentiment rule is checked strictly first, so a strongly
negative classification yields High regardless of the substring test. -/
theorem C1_prioritize_task_rules (s : StudBud) (cl : Classifier) (subject task label : String) (score : ℚ)
    (h : cl task = .ok (label, score)) :
    (label = "NEGATIVE" → 7/10 < score → (prioritize_task s cl subject task).1 = "High")
    ∧ (¬ (label = "NEGATIVE" ∧ 7/10 < score) →
        strHas (s.weaknesses subject).data task.data = true →
        (prioritize_task s cl subject task).1 = "Medium")
    ∧ (¬ (label = "NEGATIVE" ∧ 7/10 < score) →
        strHas (s.weaknesses subject).data task.data = false →
        (prioritize_task s cl subject task).1 = "Low") := by
  have hp := prioritize_task_ok_eq s cl subject task label score h
  refine ⟨?_, ?_, ?_⟩
  · intro h1 h2
    rw [hp, if_pos ⟨h1, h2⟩]
  · intro h1 h2
    rw [hp, if_neg h1, if_pos h2]
  · intro h1 h2
    rw [hp, if_neg h1, if_neg (by simp [h2])]

/-- C1 witness: a stub classifier reporting NEGATIVE at score 0.85 forces the
High branch at a concrete input. -/
theorem C1_witness :
    exClassifyNeg (r"Review Calculus using Flashcards") = .ok (r"NEGATIVE", 85/100)
    ∧ (prioritize_task exState exClassifyNeg (r"Math") (r"Review Calculus using Flashcards")).1 = "High" := by
  constructor
  · rfl
  · exact (C1_prioritize_task_rules exState exClassifyNeg (r"Math") (r"Review Calculus using Flashcards")
      (r"NEGATIVE") (85/100) rfl).1 rfl (by norm_num)

/-- C4: a failing classifier call makes prioritize_task report the failure and
return Medium, and a classifier failure never aborts the day: for any
classifier whatsoever, generate_daily_plan still succeeds and emits one block
per subject (given the structural preconditions the caller guarantees). -/
theorem C4_classifier_fail_soft (s : StudBud) (cl : Classifier) (pk : Nat → Nat) (date : Date)
    (subject task e : String) :
    (cl task = .error e →
      (prioritize_task s cl subject task).1 = "Medium" ∧ (prioritize_task s cl subject task).2 ≠ [])
    ∧ (s.subjects ≠ [] → s.study_methods ≠ [] →
        ∃ dp, generate_daily_plan s cl pk date = .ok dp ∧ dp.study_blocks.length = s.subjects.length) := by
  constructor
  · intro h
    have hp : prioritize_task s cl subject task =
        (r"Medium", [r"Error performing sentiment analysis: " ++ e ++ ".  Defaulting to medium priority."]) := by
      unfold prioritize_task
      rw [h]
    rw [hp]
    exact ⟨rfl, by simp⟩
  · intro _ hm
    refine ⟨generate_daily_planP s cl pk date, generate_daily_plan_pure s cl pk date hm, ?_⟩
    show (buildBlocksP s cl pk 0 s.subjects (timePerSubject s)).length = s.subjects.length
    exact buildBlocksP_length s cl pk s.subjects 0 (timePerSubject s)

/-- C4 witness: the always-failing stub classifier at concrete inputs. -/
theorem C4_witness :
    ((prioritize_task exState exClassifyFail (r"Math") (r"some task")).1 = "Medium"
      ∧ (prioritize_task exState exClassifyFail (r"Math") (r"some task")).2 ≠ [])
    ∧ (∃ dp, generate_daily_plan exState exClassifyFail (exPick 0) ⟨2024, 1, 1⟩ = .ok dp
        ∧ dp.study_blocks.length = exState.subjects.length) := by
  constructor
  · exact (C4_classifier_fail_soft exState exClassifyFail (exPick 0) ⟨2024, 1, 1⟩
      (r"Math") (r"some task") (r"model unavailable")).1 rfl
  · exact (C4_classifier_fail_soft exState exClassifyFail (exPick 0) ⟨2024, 1, 1⟩
      (r"Math") (r"some task") (r"model unavailable")).2 (by decide) (by decide)

/-- C9: under the default focus-area analysis (focus areas equal to the
weakness texts), whenever the classifier succeeds the computed priority is
never Low, because the task text always contains the weakness as a substring. -/
theorem C9_no_low (s : StudBud) (cl : Classifier) (subject method label : String) (score : ℚ)
    (h : cl (mkTask (analyze_student_data s) subject method) = .ok (label, score)) :
    (prioritize_task (analyze_student_data s) cl subject (mkTask (analyze_student_data s) subject method)).1 ≠ "Low" := by
  have hp := prioritize_task_ok_eq (analyze_student_data s) cl subject
    (mkTask (analyze_student_data s) subject method) label score h
  rw [hp]
  by_cases h1 : label = "NEGATIVE" ∧ 7/10 < score
  · rw [if_pos h1]
    decide
  · rw [if_neg h1]
    have heq : (mkTask (analyze_student_data s) subject method).data =
        ("Review ").data ++ ((analyze_student_data s).weaknesses subject).data
          ++ ((" using ").data ++ method.data) := by
      have h0 : (mkTask (analyze_student_data s) subject method).data =
          ((("Review ").data ++ ((analyze_student_data s).weaknesses subject).data)
            ++ (" using ").data) ++ method.data := rfl
      rw [h0, List.append_assoc]
    have hsub : strHas ((analyze_student_data s).weaknesses subject).data
        (mkTask (analyze_student_data s) subject method).data = true := by
      rw [heq]
      exact strHas_append _ _ _
    rw [if_pos hsub]
    decide

/-- C9 witness: with the NEGATIVE stub the result is High, never Low, at a
concrete subject and method. -/
theorem C9_witness :
    exClassifyNeg (mkTask (analyze_student_data exState) (r"Math") (r"Flashcards")) = .ok (r"NEGATIVE", 85/100)
    ∧ (prioritize_task (analyze_student_data exState) exClassifyNeg (r"Math")
        (mkTask (analyze_student_data exState) (r"Math") (r"Flashcards"))).1 ≠ "Low" :=
  ⟨rfl, C9_no_low exState exClassifyNeg (r"Math") (r"Flashcards") (r"NEGATIVE") (85/100) rfl⟩

/-- C3: in every generated daily plan each block's allocated time equals
max(0.5, daily_duration_hours / subject count), hence is at least half an
hour; and when the raw quotient is below one half, the total allocated time
across the day's blocks strictly exceeds the declared daily duration. -/
theorem C3_time_allocation (s : StudBud) (cl : Classifier) (pk : Nat → Nat) (date : Date)
    (dp : DailyPlan) (hsub : s.subjects ≠ []) (hdp : generate_daily_plan s cl pk date = .ok dp) :
    (∀ b ∈ dp.study_blocks,
      b.time = max (1/2) ((s.study_duration : ℚ) / (s.subjects.length : ℚ)) ∧ (1/2 : ℚ) ≤ b.time)
    ∧ ((s.study_duration : ℚ) / (s.subjects.length : ℚ) < 1/2 →
        (s.study_duration : ℚ) < ((dp.study_blocks.map (fun b => b.time)).sum)) := by
  have hdpp := generate_daily_plan_ok s cl pk date dp hdp
  subst hdpp
  have hmap := buildBlocksP_map_time s cl pk s.subjects 0 (timePerSubject s)
  constructor
  · intro b hb
    have hmem : b.time ∈ (buildBlocksP s cl pk 0 s.subjects (timePerSubject s)).map (fun b => b.time) :=
      List.mem_map_of_mem _ hb
    rw [hmap] at hmem
    have hbt : b.time = timePerSubject s := List.eq_of_mem_replicate hmem
    constructor
    · rw [hbt]
      rfl
    · rw [hbt]
      exact le_max_left _ _
  · intro hq
    show (s.study_duration : ℚ) <
      ((buildBlocksP s cl pk 0 s.subjects (timePerSubject s)).map (fun b => b.time)).sum
    rw [hmap, List.sum_replicate, nsmul_eq_mul]
    have htps : timePerSubject s = 1/2 := by
      unfold timePerSubject
      exact max_eq_left hq.le
    have hlen : (0 : ℚ) < (s.subjects.length : ℚ) := by
      have hl := List.length_pos.mpr hsub
      exact_mod_cast hl
    rw [htps]
    have hlt := (div_lt_iff₀ hlen).mp hq
    linarith

/-- C3 witness: the worked example (two subjects, one declared hour) at a
concrete date; the quotient is exactly one half, so the floor binds without
exceeding the duration. -/
theorem C3_witness :
    exState.subjects ≠ []
    ∧ ((∀ b ∈ (generate_daily_planP exState exClassifyFail (exPick 0) ⟨2024, 1, 1⟩).study_blocks,
        b.time = max (1/2) ((exState.study_duration : ℚ) / (exState.subjects.length : ℚ)) ∧ (1/2 : ℚ) ≤ b.time)
      ∧ ((exState.study_duration : ℚ) / (exState.subjects.length : ℚ) < 1/2 →
          (exState.study_duration : ℚ) <
            (((generate_daily_planP exState exClassifyFail (exPick 0) ⟨2024, 1, 1⟩).study_blocks.map (fun b => b.time)).sum))) :=
  ⟨by decide,
   C3_time_allocation exState exClassifyFail (exPick 0) ⟨2024, 1, 1⟩
     (generate_daily_planP exState exClassifyFail (exPick 0) ⟨2024, 1, 1⟩)
     (by decide)
     (generate_daily_plan_pure exState exClassifyFail (exPick 0) ⟨2024, 1, 1⟩ (by decide))⟩

/-- C6: every generated daily plan has exactly one block per subject in the
profile's subject order, each block's task text is composed as Review plus the
subject's focus area plus using plus the day's drawn method, and the
environment and preferred time are copied verbatim from the preferences. -/
theorem C6_daily_plan_shape (s : StudBud) (cl : Classifier) (pk : Nat → Nat) (date : Date)
    (dp : DailyPlan) (hdp : generate_daily_plan s cl pk date = .ok dp) :
    dp.study_blocks.map (fun b => b.subject) = s.subjects
    ∧ (∀ (j : Nat) (d0 : StudyBlock), j < dp.study_blocks.length →
        (dp.study_blocks.getD j d0).task =
          "Review " ++ s.areas_to_focus (s.subjects.getD j (r"")) ++ " using " ++ chooseMethod s (pk j))
    ∧ dp.environment = s.study_environment ∧ dp.preferred_time = s.study_time := by
  have hdpp := generate_daily_plan_ok s cl pk date dp hdp
  subst hdpp
  refine ⟨buildBlocksP_map_subject s cl pk s.subjects 0 (timePerSubject s), ?_, rfl, rfl⟩
  intro j d0 hj
  have hlen : (buildBlocksP s cl pk 0 s.subjects (timePerSubject s)).length = s.subjects.length :=
    buildBlocksP_length s cl pk s.subjects 0 (timePerSubject s)
  have hj2 : j < s.subjects.length := by
    rw [← hlen]
    exact hj
  have ht := buildBlocksP_get_task s cl pk s.subjects 0 j (timePerSubject s) d0 hj2
  rw [Nat.zero_add] at ht
  exact ht

/-- C6 witness: the worked example at a concrete date. -/
theorem C6_witness :
    (generate_daily_planP exState exClassifyFail (exPick 0) ⟨2024, 1, 1⟩).study_blocks.map (fun b => b.subject) = exState.subjects
    ∧ (∀ (j : Nat) (d0 : StudyBlock), j < (generate_daily_planP exState exClassifyFail (exPick 0) ⟨2024, 1, 1⟩).study_blocks.length →
        ((generate_daily_planP exState exClassifyFail (exPick 0) ⟨2024, 1, 1⟩).study_blocks.getD j d0).task =
          "Review " ++ exState.areas_to_focus (exState.subjects.getD j (r"")) ++ " using " ++ chooseMethod exState (exPick 0 j))
    ∧ (generate_daily_planP exState exClassifyFail (exPick 0) ⟨2024, 1, 1⟩).environment = exState.study_environment
    ∧ (generate_daily_planP exState exClassifyFail (exPick 0) ⟨2024, 1, 1⟩).preferred_time = exState.study_time :=
  C6_daily_plan_shape exState exClassifyFail (exPick 0) ⟨2024, 1, 1⟩
    (generate_daily_planP exState exClassifyFail (exPick 0) ⟨2024, 1, 1⟩)
    (generate_daily_plan_pure exState exClassifyFail (exPick 0) ⟨2024, 1, 1⟩ (by decide))

/-- C7: deserializing a serialized study plan reproduces it exactly, for every
state: the save/load JSON round trip is the identity on plans. -/
theorem C7_roundtrip (s : StudBud) : decodeStudyPlan (save_study_plan s) = some s.study_plan :=
  decodeStudyPlan_encodeStudyPlan s.study_plan

/-- C8: loading from a missing file reports the failure and terminates
normally with the stored study plan untouched. -/
theorem C8_load_missing_file (s : StudBud) (filename : String) :
    load_study_plan s filename none = (s, ["File not found: " ++ filename])
    ∧ (load_study_plan s filename none).1.study_plan = s.study_plan
    ∧ (load_study_plan s filename none).2 ≠ [] :=
  ⟨rfl, rfl, by simp [load_study_plan]⟩

-- Unfolding of generate_study_plan in the empty-subjects branch: the source
-- prints a message and returns early; no exception is raised.
theorem generate_study_plan_nil (s : StudBud) (cl : Classifier) (pks : Nat → Nat → Nat)
    (start : Date) (numDays : ℤ) (h : s.subjects = []) :
    generate_study_plan s cl pks start numDays =
      .ok (s, [r"No subjects defined. Please gather student info first."]) := by
  unfold generate_study_plan
  rw [h]

-- Unfolding of generate_study_plan past the subjects guard.
theorem generate_study_plan_cons (s : StudBud) (cl : Classifier) (pks : Nat → Nat → Nat)
    (start : Date) (numDays : ℤ) (h : s.subjects ≠ []) :
    generate_study_plan s cl pks start numDays =
      match genLoop s cl pks start numDays.toNat 0 s.study_plan with
      | .error e => .error e
      | .ok plan => .ok ({ s with study_plan := plan }, []) := by
  unfold generate_study_plan
  cases hs : s.subjects with
  | nil => exact absurd hs h
  | cons a t => rfl

/-- C5 counterexample: with an empty subjects list, generate_study_plan does
NOT fail with a propagated error: at a concrete empty-subject state it
returns normally (Except.ok) with the printed message, so no EmptyProfileError
reaches the caller. -/
theorem C5_counterexample :
    generate_study_plan emptyState exClassifyFail exPick ⟨2024, 1, 1⟩ 3 =
      .ok (emptyState, [r"No subjects defined. Please gather student info first."])
    ∧ ¬ ∃ e, generate_study_plan emptyState exClassifyFail exPick ⟨2024, 1, 1⟩ 3 = .error e := by
  constructor
  · rfl
  · rintro ⟨e, he⟩
    rw [show generate_study_plan emptyState exClassifyFail exPick ⟨2024, 1, 1⟩ 3 =
      .ok (emptyState, [r"No subjects defined. Please gather student info first."]) from rfl] at he
    exact Except.noConfusion he

/-- C5 (amended): when the subjects list is empty, generate_study_plan reports
the failure by printing a message and returns early without raising; the
state, in particular the stored study plan, is unchanged and gains no
entries. -/
theorem C5_empty_subjects (s : StudBud) (cl : Classifier) (pks : Nat → Nat → Nat)
    (start : Date) (numDays : ℤ) (h : s.subjects = []) :
    generate_study_plan s cl pks start numDays =
      .ok (s, [r"No subjects defined. Please gather student info first."]) := by
  unfold generate_study_plan
  rw [h]

/-- C5 witness: the amended statement at a concrete empty-subject state. -/
theorem C5_witness :
    emptyState.subjects = []
    ∧ generate_study_plan emptyState exClassifyFail exPick ⟨2024, 1, 1⟩ 3 =
        .ok (emptyState, [r"No subjects defined. Please gather student info first."]) :=
  ⟨rfl, C5_empty_subjects emptyState exClassifyFail exPick ⟨2024, 1, 1⟩ 3 rfl⟩

/-- C2: for every state with non-empty subjects (and the guaranteed non-empty
method list), a valid start date and a positive day count N, generation
succeeds and produces exactly N daily plans, one DailyPlanBuilder result per
date, keyed by the ISO strings of the N consecutive calendar dates starting at
the start date, with no dates skipped. -/
theorem C2_generate_consecutive (s : StudBud) (cl : Classifier) (pks : Nat → Nat → Nat)
    (start : Date) (N : ℤ) (hsub : s.subjects ≠ []) (hm : s.study_methods ≠ [])
    (hplan : s.study_plan = []) (hv : start.Valid) (hN : 0 < N) :
    generate_study_plan s cl pks start N =
      .ok ({ s with study_plan := entriesP s cl pks start N.toNat 0 }, [])
    ∧ (entriesP s cl pks start N.toNat 0).length = N.toNat
    ∧ ((N.toNat : ℤ) = N)
    ∧ (entriesP s cl pks start N.toNat 0).map Prod.fst = (datesList start N.toNat).map Date.toISO := by
  have hnd := datesList_keys_nodup N.toNat start hv
  have hloop := genLoop_append s cl pks hm N.toNat start 0 []
    (fun x _ p hp => absurd hp (List.not_mem_nil p)) hnd
  refine ⟨?_, entriesP_length s cl pks N.toNat start 0, by omega,
    entriesP_keys s cl pks N.toNat start 0⟩
  rw [generate_study_plan_cons s cl pks start N hsub, hplan, hloop]
  rfl

/-- C2 witness: the worked example (two subjects, two days from 2024-01-01). -/
theorem C2_witness :
    generate_study_plan exState exClassifyFail exPick exDate 2 =
      Except.ok ({ exState with study_plan := entriesP exState exClassifyFail exPick exDate ((2 : ℤ).toNat) 0 }, [])
    ∧ (entriesP exState exClassifyFail exPick exDate ((2 : ℤ).toNat) 0).length = (2 : ℤ).toNat
    ∧ (((2 : ℤ).toNat : ℤ) = 2)
    ∧ (entriesP exState exClassifyFail exPick exDate ((2 : ℤ).toNat) 0).map Prod.fst =
        (datesList exDate ((2 : ℤ).toNat)).map Date.toISO :=
  C2_generate_consecutive exState exClassifyFail exPick exDate 2
    (by decide) (by decide) rfl ⟨by decide, by decide, by decide, by decide⟩ (by decide)

/-- C10: generate_study_plan never clears the existing plan mapping: with a
non-positive day count the state is returned unchanged, and on any successful
run every key outside the generated date range keeps its previous binding. -/
theorem C10_frame (s : StudBud) (cl : Classifier) (pks : Nat → Nat → Nat)
    (start : Date) (N : ℤ) :
    (N ≤ 0 → ∃ log, generate_study_plan s cl pks start N = .ok (s, log))
    ∧ (∀ s2 log, generate_study_plan s cl pks start N = .ok (s2, log) →
        ∀ k, k ∉ (datesList start N.toNat).map Date.toISO →
          lookupKey s2.study_plan k = lookupKey s.study_plan k) := by
  constructor
  · intro hN
    have h0 : N.toNat = 0 := by omega
    by_cases hsub : s.subjects = []
    · exact ⟨[r"No subjects defined. Please gather student info first."],
        generate_study_plan_nil s cl pks start N hsub⟩
    · refine ⟨[], ?_⟩
      rw [generate_study_plan_cons s cl pks start N hsub, h0]
      rfl
  · intro s2 log h k hk
    by_cases hsub : s.subjects = []
    · rw [generate_study_plan_nil s cl pks start N hsub] at h
      have hinj := Except.ok.inj h
      have hs2 : s = s2 := congrArg Prod.fst hinj
      rw [← hs2]
    · rw [generate_study_plan_cons s cl pks start N hsub] at h
      cases hloop : genLoop s cl pks start N.toNat 0 s.study_plan with
      | error e => rw [hloop] at h; exact Except.noConfusion h
      | ok plan =>
        rw [hloop] at h
        have hinj := Except.ok.inj h
        have hs2 : ({ s with study_plan := plan } : StudBud) = s2 := congrArg Prod.fst hinj
        rw [← hs2]
        show lookupKey plan k = lookupKey s.study_plan k
        exact genLoop_frame s cl pks N.toNat start 0 s.study_plan plan hloop k hk

/-- C10 witness: with a non-positive day count the state with a pre-existing
entry is returned unchanged, and a one-day run preserves the binding of the
pre-existing key outside the generated range. -/
theorem C10_witness :
    (∃ log, generate_study_plan exState2 exClassifyFail exPick exDate 0 = Except.ok (exState2, log))
    ∧ lookupKey ([(r"2020-01-01", exDaily),
        (Date.toISO exDate, generate_daily_planP exState2 exClassifyFail (exPick 0) exDate)] : List (String × DailyPlan))
        (r"2020-01-01") = lookupKey exState2.study_plan (r"2020-01-01") := by
  constructor
  · exact (C10_frame exState2 exClassifyFail exPick exDate 0).1 (by decide)
  · exact (C10_frame exState2 exClassifyFail exPick exDate 1).2
      ({ exState2 with study_plan := [(r"2020-01-01", exDaily),
        (Date.toISO exDate, generate_daily_planP exState2 exClassifyFail (exPick 0) exDate)] })
      [] rfl (r"2020-01-01") (by decide)
